import Mathlib

/-!
Shallow embedding of the review-aggregation core of the "Mamãe Review"
application (`src/lib/reviews.ts`, `src/lib/products.ts`, `src/types`).

Modelling conventions:
- JavaScript numbers are modelled as rationals (`ℚ`); the numeric values the
  claims exercise (ratings, one-decimal rounding, half-integer boundaries)
  are exactly representable in binary floating point, so `ℚ` is faithful on
  the quantities of interest.
- Firestore is modelled as an explicit in-memory state: a list of product
  documents, a list of review documents, a counter for store-assigned ids
  (opaque string ids become naturals) and a logical clock for
  `serverTimestamp()`.
- Asynchronous functions become state-passing functions returning
  `Except Err α × State`: the `Except` carries the thrown error, the second
  component is the store state after the call (JavaScript exceptions do not
  roll back writes that already landed, so the state on the error path is
  whatever the partial execution left behind).
- The module-level `db` handle from `src/lib/firebase.ts` is modelled by the
  `dbOk` field of the state; `!db` corresponds to `dbOk = false`.
-/

namespace MamaeReview

/-- JavaScript `Math.round`: round half up (toward +∞), as used in
`calculateReviewStats` (`src/lib/reviews.ts:453`). -/
def jsRound (q : ℚ) : ℤ := ⌊q + 1/2⌋

/-- JavaScript `Number(x.toFixed(1))`: round to one decimal place, ties away
from zero (the ECMAScript `toFixed` algorithm takes the absolute value first
and rounds ties to the larger candidate), as used in `updateProductRating`
(`src/lib/reviews.ts:380`) and `calculateReviewStats` (`src/lib/reviews.ts:460`). -/
def toFixed1 (q : ℚ) : ℚ :=
  if q < 0 then -((⌊-q * 10 + 1/2⌋ : ℚ) / 10) else (⌊q * 10 + 1/2⌋ : ℚ) / 10

/-- Round half up (toward +∞) to one decimal place: the rounding mode named by
the specification ("standard half-up rounding"). On non-negative inputs it
agrees with `toFixed1`. -/
def roundHalfUp1 (q : ℚ) : ℚ := (⌊q * 10 + 1/2⌋ : ℚ) / 10

/-- A review document (`src/types/review.ts`). Store-assigned string ids are
modelled as naturals; `createdAt` is the logical server timestamp. -/
structure Review where
  id : ℕ
  productId : ℕ
  rating : ℚ
  comment : String
  authorId : ℕ
  authorName : String
  createdAt : ℕ
deriving DecidableEq

/-- `ReviewInput = Omit<Review, 'id' | 'createdAt'>` (`src/types/review.ts`). -/
structure ReviewInput where
  productId : ℕ
  rating : ℚ
  comment : String
  authorId : ℕ
  authorName : String
deriving DecidableEq

/-- `ReviewSortBy = 'recent' | 'rating'` (`src/types/review.ts`). -/
inductive ReviewSortBy where
  | recent
  | rating
deriving DecidableEq

/-- A product document (`src/types/product.ts`). -/
structure Product where
  id : ℕ
  name : String
  category : String
  description : String
  rating : ℚ
  price : ℚ
  storeName : String
  storeLink : String
  imageUrl : String
  createdBy : ℕ
  createdAt : ℕ
deriving DecidableEq

/-- `ProductInput = Omit<Product, 'id' | 'createdAt'>` (`src/types/product.ts`). -/
structure ProductInput where
  name : String
  category : String
  description : String
  rating : ℚ
  price : ℚ
  storeName : String
  storeLink : String
  imageUrl : String
  createdBy : ℕ
deriving DecidableEq

/-- `Partial<ProductInput>`: the argument of `updateProduct`
(`src/lib/products.ts:320`); absent fields are `none`. -/
structure ProductUpdate where
  name : Option String
  category : Option String
  description : Option String
  rating : Option ℚ
  price : Option ℚ
  storeName : Option String
  storeLink : Option String
  imageUrl : Option String
  createdBy : Option ℕ
deriving DecidableEq

/-- Errors thrown by the library: the explicit "Firestore não está configurado"
configuration error, and the store's not-found error raised by `updateDoc` on a
document that does not exist. -/
inductive Err where
  | notConfigured
  | notFound
deriving DecidableEq

/-- The modelled Firestore state: the `products` and `reviews` collections, the
id counter for store-assigned document ids, and the logical `serverTimestamp`
clock. `dbOk` models whether the module-level `db` handle is initialized. -/
structure State where
  dbOk : Bool
  products : List Product
  reviews : List Review
  nextId : ℕ
  now : ℕ
deriving DecidableEq

/-- The empty store: `db` configured, no documents. -/
def initialState : State :=
  { dbOk := true, products := [], reviews := [], nextId := 0, now := 0 }

/-- `orderBy` of the review query (`src/lib/reviews.ts:160-167`): sort by
`createdAt` descending for 'recent', by `rating` descending for 'rating'.
Firestore leaves tie order store-defined; `mergeSort` (a stable sort) fixes
one such order. -/
def sortReviews (sortBy : ReviewSortBy) (l : List Review) : List Review :=
  match sortBy with
  | .recent => l.mergeSort (fun a b => decide (b.createdAt ≤ a.createdAt))
  | .rating => l.mergeSort (fun a b => decide (b.rating ≤ a.rating))

/-- `getProductReviews` (`src/lib/reviews.ts:147-187`): throws if `db` is not
configured, otherwise returns the reviews whose `productId` matches, in the
requested order. A pure read: it never changes the store. -/
def getProductReviews (st : State) (productId : ℕ) (sortBy : ReviewSortBy) :
    Except Err (List Review) :=
  if !st.dbOk then .error .notConfigured
  else .ok (sortReviews sortBy (st.reviews.filter (fun r => r.productId == productId)))

/-- `hasUserReviewed` (`src/lib/reviews.ts:220-247`): throws if `db` is not
configured, otherwise queries by `productId` and `authorId` and returns
`!querySnapshot.empty`. -/
def hasUserReviewed (st : State) (productId : ℕ) (userId : ℕ) : Except Err Bool :=
  if !st.dbOk then .error .notConfigured
  else .ok (!(st.reviews.filter
      (fun r => r.productId == productId && r.authorId == userId)).isEmpty)

/-- `subscribeToProductReviews` (`src/lib/reviews.ts:288-326`): the synchronous
part of the subscription, namely the `db` check and the first snapshot the
`onSnapshot` listener delivers to the callback (the current matching review
list in the requested order). The ongoing stream of later snapshots is not
modelled; the claims only concern the fail-fast check. -/
def subscribeToProductReviews (st : State) (productId : ℕ) (sortBy : ReviewSortBy) :
    Except Err (List Review) :=
  if !st.dbOk then .error .notConfigured
  else .ok (sortReviews sortBy (st.reviews.filter (fun r => r.productId == productId)))

/-- `updateDoc` on `products/{productId}` setting the `rating` field
(`src/lib/reviews.ts:378-381`). Firestore's `updateDoc` fails when the target
document does not exist; on failure nothing is written. -/
def updateDocProductRating (st : State) (productId : ℕ) (newRating : ℚ) :
    Except Err Unit × State :=
  if st.products.any (fun p => p.id == productId) then
    let updated := st.products.map
      (fun p => if p.id = productId then { p with rating := newRating } else p)
    (.ok (), { st with products := updated })
  else (.error .notFound, st)

/-- `updateProductRating` (`src/lib/reviews.ts:358-388`): fetch all reviews of
the product (the call uses the default 'recent' order), return without writing
when there are none, otherwise write the mean rating rounded to one decimal
(`Number(averageRating.toFixed(1))`) onto the product document. -/
def updateProductRating (st : State) (productId : ℕ) : Except Err Unit × State :=
  if !st.dbOk then (.error .notConfigured, st)
  else
    match getProductReviews st productId .recent with
    | .error e => (.error e, st)
    | .ok reviews =>
      if reviews.length = 0 then (.ok (), st)
      else
        let totalRating : ℚ := reviews.foldl (fun sum review => sum + review.rating) 0
        let averageRating : ℚ := totalRating / (reviews.length : ℚ)
        updateDocProductRating st productId (toFixed1 averageRating)

/-- The review document `addDoc` inserts (`src/lib/reviews.ts:103-106`):
the input fields plus a store-assigned id and `serverTimestamp()`. -/
def newReviewDoc (st : State) (data : ReviewInput) : Review :=
  { id := st.nextId
    productId := data.productId
    rating := data.rating
    comment := data.comment
    authorId := data.authorId
    authorName := data.authorName
    createdAt := st.now }

/-- The state right after `addDoc` lands the review. -/
def insertReview (st : State) (data : ReviewInput) : State :=
  { st with
    reviews := st.reviews ++ [newReviewDoc st data]
    nextId := st.nextId + 1
    now := st.now + 1 }

/-- `createReview` (`src/lib/reviews.ts:93-119`): throws if `db` is not
configured; otherwise inserts the review document and then calls
`updateProductRating`. An error thrown by the rating update propagates to the
caller, but the review insert it follows is not rolled back. -/
def createReview (st : State) (data : ReviewInput) : Except Err ℕ × State :=
  if !st.dbOk then (.error .notConfigured, st)
  else
    let st1 := insertReview st data
    match updateProductRating st1 data.productId with
    | (.ok _, st2) => (.ok st.nextId, st2)
    | (.error e, st2) => (.error e, st2)

/-- `createProduct` (`src/lib/products.ts:80-99`): throws if `db` is not
configured; otherwise inserts the product document (all `ProductInput` fields,
including the caller-supplied `rating`) with a server timestamp. -/
def createProduct (st : State) (data : ProductInput) : Except Err ℕ × State :=
  if !st.dbOk then (.error .notConfigured, st)
  else
    let p : Product :=
      { id := st.nextId
        name := data.name
        category := data.category
        description := data.description
        rating := data.rating
        price := data.price
        storeName := data.storeName
        storeLink := data.storeLink
        imageUrl := data.imageUrl
        createdBy := data.createdBy
        createdAt := st.now }
    (.ok st.nextId,
      { st with products := st.products ++ [p], nextId := st.nextId + 1, now := st.now + 1 })

/-- `updateDoc` merge semantics: fields present in the partial document
overwrite, absent fields are preserved. -/
def applyUpdate (u : ProductUpdate) (p : Product) : Product :=
  { p with
    name := u.name.getD p.name
    category := u.category.getD p.category
    description := u.description.getD p.description
    rating := u.rating.getD p.rating
    price := u.price.getD p.price
    storeName := u.storeName.getD p.storeName
    storeLink := u.storeLink.getD p.storeLink
    imageUrl := u.imageUrl.getD p.imageUrl
    createdBy := u.createdBy.getD p.createdBy }

/-- `updateProduct` (`src/lib/products.ts:320-337`): throws if `db` is not
configured; otherwise `updateDoc` merges the given fields into the product
document, failing (without writing) when it does not exist. -/
def updateProduct (st : State) (productId : ℕ) (data : ProductUpdate) :
    Except Err Unit × State :=
  if !st.dbOk then (.error .notConfigured, st)
  else if st.products.any (fun p => p.id == productId) then
    let updated := st.products.map
      (fun p => if p.id = productId then applyUpdate data p else p)
    (.ok (), { st with products := updated })
  else (.error .notFound, st)

/-- The star-count histogram of `calculateReviewStats`: the object literal
`{ 1: 0, 2: 0, 3: 0, 4: 0, 5: 0 }` with exactly the integer keys 1..5. -/
structure Distribution where
  d1 : ℕ
  d2 : ℕ
  d3 : ℕ
  d4 : ℕ
  d5 : ℕ
deriving DecidableEq

/-- Lookup of a histogram key: keys 1..5 map to the bucket counts, every other
integer key is absent (count 0). -/
def Distribution.bucket (d : Distribution) (k : ℤ) : ℕ :=
  if k = 1 then d.d1
  else if k = 2 then d.d2
  else if k = 3 then d.d3
  else if k = 4 then d.d4
  else if k = 5 then d.d5
  else 0

/-- The all-zero histogram. -/
def emptyDistribution : Distribution := ⟨0, 0, 0, 0, 0⟩

/-- One iteration of the `forEach` loop (`src/lib/reviews.ts:452-457`): bump
the bucket of the rounded rating when it lies in [1,5], else change nothing. -/
def addToDistribution (d : Distribution) (rating : ℤ) : Distribution :=
  if 1 ≤ rating ∧ rating ≤ 5 then
    if rating = 1 then { d with d1 := d.d1 + 1 }
    else if rating = 2 then { d with d2 := d.d2 + 1 }
    else if rating = 3 then { d with d3 := d.d3 + 1 }
    else if rating = 4 then { d with d4 := d.d4 + 1 }
    else { d with d5 := d.d5 + 1 }
  else d

/-- The record returned by `calculateReviewStats`. -/
structure ReviewStats where
  average : ℚ
  total : ℕ
  distribution : Distribution
deriving DecidableEq

/-- `calculateReviewStats` (`src/lib/reviews.ts:431-464`): zeros for the empty
list; otherwise the mean rating rounded to one decimal, the count, and the
histogram of `Math.round`ed ratings clamped to keys 1..5. -/
def calculateReviewStats (reviews : List Review) : ReviewStats :=
  if reviews.length = 0 then
    { average := 0, total := 0, distribution := emptyDistribution }
  else
    let total := reviews.length
    let sum : ℚ := reviews.foldl (fun acc review => acc + review.rating) 0
    let average : ℚ := sum / (total : ℚ)
    let distribution := reviews.foldl
      (fun d review => addToDistribution d (jsRound review.rating)) emptyDistribution
    { average := toFixed1 average, total := total, distribution := distribution }

/-- The rating value the product invariant demands: the mean of the ratings of
the reviews for the product, rounded to one decimal the way the code rounds,
or 0 when there are none. -/
def ratingFromReviews (reviews : List Review) (productId : ℕ) : ℚ :=
  let R := reviews.filter (fun r => r.productId == productId)
  if R.length = 0 then 0
  else toFixed1 (((R.map Review.rating).sum) / (R.length : ℚ))

/-- The spec's product invariant: every product's `rating` field equals the
rounded mean of its reviews' ratings, or 0 with no reviews. -/
def ratingInvariant (st : State) : Prop :=
  ∀ p ∈ st.products, p.rating = ratingFromReviews st.reviews p.id

instance (st : State) : Decidable (ratingInvariant st) := by
  unfold ratingInvariant; infer_instance

/-- One step of the system by a core operation with an arbitrary input, taking
the resulting state whether the operation succeeded or threw. -/
inductive Step : State → State → Prop where
  | createProductStep (st : State) (data : ProductInput) :
      Step st (createProduct st data).2
  | createReviewStep (st : State) (data : ReviewInput) :
      Step st (createReview st data).2
  | updateProductStep (st : State) (productId : ℕ) (data : ProductUpdate) :
      Step st (updateProduct st productId data).2
  | updateProductRatingStep (st : State) (productId : ℕ) :
      Step st (updateProductRating st productId).2

/-- States reachable from the empty store by the core operations. -/
inductive Reachable : State → Prop where
  | init : Reachable initialState
  | step {st st' : State} : Reachable st → Step st st' → Reachable st'

/-- One step of the system restricted to the uses the rating invariant
survives: `createProduct` with initial rating 0, `createReview` aimed at an
existing product, `updateProduct` without a `rating` field, and
`updateProductRating` unrestricted. -/
inductive SafeStep : State → State → Prop where
  | createProductStep (st : State) (data : ProductInput) (h : data.rating = 0) :
      SafeStep st (createProduct st data).2
  | createReviewStep (st : State) (data : ReviewInput)
      (h : st.products.any (fun p => p.id == data.productId) = true) :
      SafeStep st (createReview st data).2
  | updateProductStep (st : State) (productId : ℕ) (data : ProductUpdate)
      (h : data.rating = none) :
      SafeStep st (updateProduct st productId data).2
  | updateProductRatingStep (st : State) (productId : ℕ) :
      SafeStep st (updateProductRating st productId).2

/-- States reachable from the empty store by the restricted steps. -/
inductive SafeReachable : State → Prop where
  | init : SafeReachable initialState
  | step {st st' : State} : SafeReachable st → SafeStep st st' → SafeReachable st'

/-- The reviews currently stored for a product: the result set of the
`where('productId', '==', productId)` query, before ordering. -/
def productReviews (st : State) (productId : ℕ) : List Review :=
  st.reviews.filter (fun r => r.productId == productId)

/-- The number of reviews in `l` whose `Math.round`ed rating is `k`. -/
def starCount (l : List Review) (k : ℤ) : ℕ :=
  l.countP (fun r => jsRound r.rating == k)

/-- The value `updateProductRating` writes for a product whose review set is
`R`: the mean rounded by `toFixed(1)`. -/
def writtenRating (R : List Review) : ℚ :=
  toFixed1 (((R.map Review.rating).sum) / (R.length : ℚ))

/-- Freshness bookkeeping for the id counter: every stored product id and every
review's product reference is strictly below `nextId`. -/
def storeBounds (st : State) : Prop :=
  (∀ p ∈ st.products, p.id < st.nextId) ∧ (∀ r ∈ st.reviews, r.productId < st.nextId)

/-- A concrete review for use in closed statements. -/
def mkRev (id productId : ℕ) (rating : ℚ) (authorId : ℕ) : Review :=
  { id := id, productId := productId, rating := rating, comment := "bom",
    authorId := authorId, authorName := "a", createdAt := id }

/-- A store state whose `db` handle is not initialized. -/
def noDbState : State :=
  { dbOk := false, products := [], reviews := [], nextId := 0, now := 0 }

/-- A concrete review input for closed statements. -/
def sampleInput : ReviewInput :=
  { productId := 0, rating := 5, comment := "otimo produto, recomendo",
    authorId := 3, authorName := "Ana" }

/-- A concrete product document with id 0. -/
def sampleProduct : Product :=
  { id := 0, name := "Carrinho", category := "Transporte", description := "leve",
    rating := 0, price := 100, storeName := "Loja", storeLink := "",
    imageUrl := "", createdBy := 7, createdAt := 0 }

/-- A concrete state holding one product (id 0) and no reviews. -/
def oneProductState : State :=
  { dbOk := true, products := [sampleProduct], reviews := [], nextId := 1, now := 1 }

/-- A concrete state with one product (id 0) and one stored review rated 4. -/
def ratedState : State :=
  { dbOk := true, products := [sampleProduct], reviews := [mkRev 1 0 4 3],
    nextId := 2, now := 2 }

/-- Agreement of two product documents on every field except `rating`. -/
def agreeExceptRating (p q : Product) : Prop :=
  q.id = p.id ∧ q.name = p.name ∧ q.category = p.category ∧
  q.description = p.description ∧ q.price = p.price ∧ q.storeName = p.storeName ∧
  q.storeLink = p.storeLink ∧ q.imageUrl = p.imageUrl ∧
  q.createdBy = p.createdBy ∧ q.createdAt = p.createdAt

/-- A product input carrying a non-zero initial rating, as `createProduct`
accepts (the `ProductInput` type includes `rating` and the code stores it
verbatim). -/
def badProductInput : ProductInput :=
  { name := "Bebe Conforto", category := "Transporte", description := "novo",
    rating := 5, price := 300, storeName := "Loja", storeLink := "",
    imageUrl := "", createdBy := 7 }

/-- The product document the counterexample's `createProduct` call stores. -/
def badProduct : Product :=
  { id := 0, name := "Bebe Conforto", category := "Transporte",
    description := "novo", rating := 5, price := 300, storeName := "Loja",
    storeLink := "", imageUrl := "", createdBy := 7, createdAt := 0 }

/-- A rating-0 product input for the C1 witness. -/
def goodProductInput : ProductInput :=
  { name := "Mamadeira", category := "Amamentação", description := "boa",
    rating := 0, price := 50, storeName := "Loja", storeLink := "",
    imageUrl := "", createdBy := 2 }

/-- The C1 witness state: create a product, then review it. -/
def c1WitnessState : State :=
  (createReview (createProduct initialState goodProductInput).2 sampleInput).2

lemma jsRound_nine_halves : jsRound (9/2) = 5 := by
  rw [jsRound, Int.floor_eq_iff] <;> norm_num

lemma jsRound_one : jsRound 1 = 1 := by
  rw [jsRound, Int.floor_eq_iff] <;> norm_num

lemma toFixed1_of_nonneg {q : ℚ} (h : 0 ≤ q) : toFixed1 q = roundHalfUp1 q := by
  rw [toFixed1, roundHalfUp1, if_neg (not_lt.mpr h)]

lemma addToDistribution_eq (d : Distribution) (m : ℤ) :
    addToDistribution d m =
      ⟨d.d1 + (if m = 1 then 1 else 0), d.d2 + (if m = 2 then 1 else 0),
       d.d3 + (if m = 3 then 1 else 0), d.d4 + (if m = 4 then 1 else 0),
       d.d5 + (if m = 5 then 1 else 0)⟩ := by
  unfold addToDistribution
  split_ifs <;> simp_all [Distribution.mk.injEq] <;> omega

lemma foldl_addToDistribution (l : List Review) (d : Distribution) :
    l.foldl (fun d r => addToDistribution d (jsRound r.rating)) d =
      ⟨d.d1 + starCount l 1, d.d2 + starCount l 2, d.d3 + starCount l 3,
       d.d4 + starCount l 4, d.d5 + starCount l 5⟩ := by
  induction l generalizing d with
  | nil => simp [starCount]
  | cons r l ih =>
    rw [List.foldl_cons, ih, addToDistribution_eq]
    simp only [starCount, List.countP_cons, Distribution.mk.injEq, beq_iff_eq]
    refine ⟨by omega, by omega, by omega, by omega, by omega⟩

lemma foldl_add_rating (l : List Review) (a : ℚ) :
    l.foldl (fun acc r => acc + r.rating) a = a + (l.map Review.rating).sum := by
  induction l generalizing a with
  | nil => simp
  | cons r l ih =>
    rw [List.foldl_cons, ih]
    simp
    ring

/-- Closed form of `calculateReviewStats`: the average is the rounded mean of
all ratings (with the `x / 0 = 0` convention making the empty case agree), the
total is the length, and each bucket counts the reviews rounding to that
star value. -/
lemma calculateReviewStats_eq (l : List Review) :
    calculateReviewStats l =
      { average := toFixed1 (((l.map Review.rating).sum) / (l.length : ℚ)),
        total := l.length,
        distribution :=
          ⟨starCount l 1, starCount l 2, starCount l 3, starCount l 4, starCount l 5⟩ } := by
  unfold calculateReviewStats
  split_ifs with h
  · rw [List.length_eq_zero] at h
    subst h
    simp only [List.map_nil, List.sum_nil, List.length_nil, Nat.cast_zero, div_zero]
    have h0 : toFixed1 0 = 0 := by
      rw [toFixed1, if_neg (by norm_num)]
      rw [show ((0:ℚ) * 10 + 1/2) = 1/2 by norm_num]
      rw [show (⌊(1:ℚ)/2⌋ = 0) from by rw [Int.floor_eq_iff] <;> norm_num]
      norm_num
    rw [h0]
    simp [starCount, emptyDistribution]
  · rw [foldl_addToDistribution, foldl_add_rating]
    simp [emptyDistribution]

lemma jsRound_mem_of_rating_range {q : ℚ} (h1 : 1 ≤ q) (h5 : q ≤ 5) :
    1 ≤ jsRound q ∧ jsRound q ≤ 5 := by
  constructor
  · rw [jsRound]
    refine Int.le_floor.mpr ?_
    push_cast
    linarith
  · rw [jsRound]
    have : ⌊q + 1/2⌋ < 6 := by
      refine Int.floor_lt.mpr ?_
      push_cast
      linarith
    omega

lemma indicator_sum_eq_one {m : ℤ} (h1 : 1 ≤ m) (h5 : m ≤ 5) :
    (if m = 1 then 1 else 0) + (if m = 2 then 1 else 0) + (if m = 3 then 1 else 0) +
      (if m = 4 then 1 else 0) + (if m = 5 then (1:ℕ) else 0) = 1 := by
  split_ifs <;> omega

lemma indicator_sum_le_one (m : ℤ) :
    (if m = 1 then 1 else 0) + (if m = 2 then 1 else 0) + (if m = 3 then 1 else 0) +
      (if m = 4 then 1 else 0) + (if m = 5 then (1:ℕ) else 0) ≤ 1 := by
  split_ifs <;> omega

lemma starCount_sum_le (l : List Review) :
    starCount l 1 + starCount l 2 + starCount l 3 + starCount l 4 + starCount l 5 ≤
      l.length := by
  induction l with
  | nil => simp [starCount]
  | cons r l ih =>
    have hind := indicator_sum_le_one (jsRound r.rating)
    simp only [starCount, List.countP_cons, beq_iff_eq, List.length_cons] at *
    omega

lemma starCount_sum_eq (l : List Review) (h : ∀ r ∈ l, 1 ≤ r.rating ∧ r.rating ≤ 5) :
    starCount l 1 + starCount l 2 + starCount l 3 + starCount l 4 + starCount l 5 =
      l.length := by
  induction l with
  | nil => simp [starCount]
  | cons r l ih =>
    have hr := h r (by simp)
    have hm := jsRound_mem_of_rating_range hr.1 hr.2
    have hind := indicator_sum_eq_one hm.1 hm.2
    have ih' := ih (fun x hx => h x (by simp [hx]))
    simp only [starCount, List.countP_cons, beq_iff_eq, List.length_cons] at *
    omega

lemma sortReviews_perm (sortBy : ReviewSortBy) (l : List Review) :
    (sortReviews sortBy l).Perm l := by
  cases sortBy <;> exact List.mergeSort_perm l _

lemma sortReviews_length (sortBy : ReviewSortBy) (l : List Review) :
    (sortReviews sortBy l).length = l.length :=
  (sortReviews_perm sortBy l).length_eq

lemma sortReviews_map_sum (sortBy : ReviewSortBy) (l : List Review) :
    ((sortReviews sortBy l).map Review.rating).sum = (l.map Review.rating).sum :=
  ((sortReviews_perm sortBy l).map Review.rating).sum_eq

lemma updateProductRating_noDb {st : State} (pid : ℕ) (h : st.dbOk = false) :
    updateProductRating st pid = (.error .notConfigured, st) := by
  simp [updateProductRating, h]

lemma updateProductRating_empty {st : State} (pid : ℕ) (h : st.dbOk = true)
    (hR : productReviews st pid = []) :
    updateProductRating st pid = (.ok (), st) := by
  rw [productReviews] at hR
  have hs : sortReviews .recent (st.reviews.filter (fun r => r.productId == pid)) = [] := by
    rw [hR]
    simp [sortReviews, List.mergeSort_nil]
  simp [updateProductRating, getProductReviews, h, hs]

lemma updateProductRating_notFound {st : State} (pid : ℕ) (h : st.dbOk = true)
    (hR : productReviews st pid ≠ [])
    (hp : st.products.any (fun p => p.id == pid) = false) :
    updateProductRating st pid = (.error .notFound, st) := by
  have hlen : (sortReviews .recent (st.reviews.filter (fun r => r.productId == pid))).length ≠ 0 := by
    rw [sortReviews_length]
    simpa [productReviews, List.length_eq_zero] using hR
  simp [updateProductRating, getProductReviews, h, hlen, updateDocProductRating, hp]

lemma updateProductRating_found {st : State} (pid : ℕ) (h : st.dbOk = true)
    (hR : productReviews st pid ≠ [])
    (hp : st.products.any (fun p => p.id == pid) = true) :
    updateProductRating st pid =
      (.ok (), { st with products := (st.products.map (fun p =>
        if p.id = pid then { p with rating := writtenRating (productReviews st pid) }
        else p)) }) := by
  have hlen : (sortReviews .recent (st.reviews.filter (fun r => r.productId == pid))).length ≠ 0 := by
    rw [sortReviews_length]
    simpa [productReviews, List.length_eq_zero] using hR
  simp only [updateProductRating, getProductReviews, h, Bool.not_true, Bool.false_eq_true,
    if_false, hlen, if_neg hlen, updateDocProductRating, hp, if_true]
  congr 1
  rw [foldl_add_rating, zero_add, writtenRating]
  rw [show (st.reviews.filter (fun r => r.productId == pid)) = productReviews st pid from rfl]
  rw [sortReviews_map_sum, sortReviews_length]

lemma updateProductRating_frame (st : State) (pid : ℕ) :
    (updateProductRating st pid).2.reviews = st.reviews ∧
    (updateProductRating st pid).2.dbOk = st.dbOk ∧
    (updateProductRating st pid).2.nextId = st.nextId ∧
    (updateProductRating st pid).2.now = st.now := by
  by_cases h : st.dbOk = true
  · by_cases hR : productReviews st pid = []
    · rw [updateProductRating_empty pid h hR]
      exact ⟨rfl, rfl, rfl, rfl⟩
    · by_cases hp : st.products.any (fun p => p.id == pid) = true
      · rw [updateProductRating_found pid h hR hp]
        exact ⟨rfl, rfl, rfl, rfl⟩
      · rw [updateProductRating_notFound pid h hR (by simpa using hp)]
        exact ⟨rfl, rfl, rfl, rfl⟩
  · rw [updateProductRating_noDb pid (by simpa using h)]
    exact ⟨rfl, rfl, rfl, rfl⟩

lemma updateProductRating_fst_cases (st : State) (pid : ℕ) (h : st.dbOk = true) :
    (updateProductRating st pid).1 = .ok () ∨
      (updateProductRating st pid).1 = .error .notFound := by
  by_cases hR : productReviews st pid = []
  · rw [updateProductRating_empty pid h hR]
    exact .inl rfl
  · by_cases hp : st.products.any (fun p => p.id == pid) = true
    · rw [updateProductRating_found pid h hR hp]
      exact .inl rfl
    · rw [updateProductRating_notFound pid h hR (by simpa using hp)]
      exact .inr rfl

lemma hasUserReviewed_noDb {st : State} (pid uid : ℕ) (h : st.dbOk = false) :
    hasUserReviewed st pid uid = .error .notConfigured := by
  simp [hasUserReviewed, h]

lemma hasUserReviewed_ok {st : State} (pid uid : ℕ) (h : st.dbOk = true) :
    hasUserReviewed st pid uid =
      .ok (!(st.reviews.filter
        (fun r => r.productId == pid && r.authorId == uid)).isEmpty) := by
  simp [hasUserReviewed, h]

lemma createReview_noDb {st : State} (data : ReviewInput) (h : st.dbOk = false) :
    createReview st data = (.error .notConfigured, st) := by
  simp [createReview, h]

lemma createReview_snd {st : State} (data : ReviewInput) (h : st.dbOk = true) :
    (createReview st data).2 =
      (updateProductRating (insertReview st data) data.productId).2 := by
  simp only [createReview, h, Bool.not_true, Bool.false_eq_true, if_false]
  rcases hu : updateProductRating (insertReview st data) data.productId with ⟨res, st2⟩
  cases res <;> rfl

lemma createReview_fst {st : State} (data : ReviewInput) (h : st.dbOk = true) :
    (createReview st data).1 =
      match (updateProductRating (insertReview st data) data.productId).1 with
      | .ok _ => .ok st.nextId
      | .error e => .error e := by
  simp only [createReview, h, Bool.not_true, Bool.false_eq_true, if_false]
  rcases hu : updateProductRating (insertReview st data) data.productId with ⟨res, st2⟩
  cases res <;> rfl

lemma filter_productId_empty_of_fresh (reviews : List Review) (n : ℕ)
    (h : ∀ r ∈ reviews, r.productId < n) :
    reviews.filter (fun r => r.productId == n) = [] := by
  rw [List.filter_eq_nil_iff]
  intro r hr
  have := h r hr
  simp only [beq_iff_eq]
  omega

lemma ratingFromReviews_append_of_ne (reviews : List Review) (r : Review) (pid : ℕ)
    (h : r.productId ≠ pid) :
    ratingFromReviews (reviews ++ [r]) pid = ratingFromReviews reviews pid := by
  have hb : (r.productId == pid) = false := by simpa using h
  unfold ratingFromReviews
  rw [List.filter_append, List.filter_cons, hb]
  simp

lemma ratingFromReviews_of_nonempty (reviews : List Review) (pid : ℕ)
    (h : reviews.filter (fun r => r.productId == pid) ≠ []) :
    ratingFromReviews reviews pid =
      writtenRating (reviews.filter (fun r => r.productId == pid)) := by
  unfold ratingFromReviews writtenRating
  rw [if_neg (by simpa [List.length_eq_zero] using h)]

lemma inv_createProduct {st : State} (data : ProductInput)
    (hB : storeBounds st) (hI : ratingInvariant st) (h0 : data.rating = 0) :
    storeBounds (createProduct st data).2 ∧ ratingInvariant (createProduct st data).2 := by
  by_cases h : st.dbOk = true
  · simp only [createProduct, h, Bool.not_true, Bool.false_eq_true, if_false]
    constructor
    · constructor
      · intro p hp
        simp only [List.mem_append, List.mem_singleton] at hp
        rcases hp with hp | hp
        · exact Nat.lt_succ_of_lt (hB.1 p hp)
        · subst hp
          exact Nat.lt_succ_self _
      · intro r hr
        exact Nat.lt_succ_of_lt (hB.2 r hr)
    · intro p hp
      simp only [List.mem_append, List.mem_singleton] at hp
      rcases hp with hp | hp
      · exact hI p hp
      · subst hp
        simp only
        rw [h0, ratingFromReviews]
        rw [filter_productId_empty_of_fresh st.reviews st.nextId hB.2]
        simp
  · simp only [createProduct, Bool.not_eq_true] at *
    simp only [h, Bool.not_false, if_true]
    exact ⟨hB, hI⟩

lemma inv_updateProduct {st : State} (pid : ℕ) (data : ProductUpdate)
    (hB : storeBounds st) (hI : ratingInvariant st) (hr : data.rating = none) :
    storeBounds (updateProduct st pid data).2 ∧ ratingInvariant (updateProduct st pid data).2 := by
  by_cases h : st.dbOk = true
  · by_cases hp : st.products.any (fun p => p.id == pid) = true
    · simp only [updateProduct, h, Bool.not_true, Bool.false_eq_true, if_false, hp, if_true]
      constructor
      · constructor
        · intro q hq
          simp only [List.mem_map] at hq
          rcases hq with ⟨p, hpmem, hpq⟩
          subst hpq
          split
          · simpa [applyUpdate] using hB.1 p hpmem
          · exact hB.1 p hpmem
        · exact hB.2
      · intro q hq
        simp only [List.mem_map] at hq
        rcases hq with ⟨p, hpmem, hpq⟩
        subst hpq
        split
        · simp only [applyUpdate, hr, Option.getD_none]
          exact hI p hpmem
        · exact hI p hpmem
    · simp only [updateProduct, h, Bool.not_true, Bool.false_eq_true, if_false, hp, if_false]
      exact ⟨hB, hI⟩
  · simp only [Bool.not_eq_true] at h
    simp only [updateProduct, h, Bool.not_false, if_true]
    exact ⟨hB, hI⟩

lemma inv_updateProductRating {st : State} (pid : ℕ)
    (hB : storeBounds st) (hI : ratingInvariant st) :
    storeBounds (updateProductRating st pid).2 ∧
      ratingInvariant (updateProductRating st pid).2 := by
  by_cases h : st.dbOk = true
  · by_cases hR : productReviews st pid = []
    · rw [updateProductRating_empty pid h hR]
      exact ⟨hB, hI⟩
    · by_cases hp : st.products.any (fun p => p.id == pid) = true
      · rw [updateProductRating_found pid h hR hp]
        constructor
        · constructor
          · intro q hq
            simp only [List.mem_map] at hq
            rcases hq with ⟨p, hpmem, hpq⟩
            subst hpq
            split
            · simpa using hB.1 p hpmem
            · exact hB.1 p hpmem
          · exact hB.2
        · intro q hq
          simp only [List.mem_map] at hq
          rcases hq with ⟨p, hpmem, hpq⟩
          subst hpq
          by_cases hid : p.id = pid
          · rw [if_pos hid]
            simp only
            rw [hid, ratingFromReviews_of_nonempty st.reviews pid hR]
            rfl
          · rw [if_neg hid]
            exact hI p hpmem
      · rw [updateProductRating_notFound pid h hR (by simpa using hp)]
        exact ⟨hB, hI⟩
  · rw [updateProductRating_noDb pid (by simpa using h)]
    exact ⟨hB, hI⟩

lemma inv_createReview {st : State} (data : ReviewInput)
    (hB : storeBounds st) (hI : ratingInvariant st)
    (hp : st.products.any (fun p => p.id == data.productId) = true) :
    storeBounds (createReview st data).2 ∧ ratingInvariant (createReview st data).2 := by
  by_cases h : st.dbOk = true
  · rw [createReview_snd data h]
    set st1 := insertReview st data with hst1
    have h1 : st1.dbOk = true := h
    have hprod1 : st1.products = st.products := rfl
    have hrev1 : st1.reviews = st.reviews ++ [newReviewDoc st data] := rfl
    have hpidlt : data.productId < st.nextId := by
      rcases List.any_eq_true.mp hp with ⟨p, hpmem, hpeq⟩
      rw [beq_iff_eq] at hpeq
      rw [← hpeq]
      exact hB.1 p hpmem
    have hB1 : storeBounds st1 := by
      constructor
      · intro p hpm
        exact Nat.lt_succ_of_lt (hB.1 p hpm)
      · intro r hr
        rw [hrev1] at hr
        simp only [List.mem_append, List.mem_singleton] at hr
        rcases hr with hr | hr
        · exact Nat.lt_succ_of_lt (hB.2 r hr)
        · subst hr
          exact Nat.lt_succ_of_lt hpidlt
    have hR1 : productReviews st1 data.productId ≠ [] := by
      rw [productReviews, hrev1, List.filter_append]
      intro hcontra
      rcases List.append_eq_nil.mp hcontra with ⟨_, h2⟩
      simp only [List.filter_cons, List.filter_nil, beq_iff_eq] at h2
      split at h2
      · exact List.cons_ne_nil _ _ h2
      · next hne => exact hne rfl
    have hp1 : st1.products.any (fun p => p.id == data.productId) = true := hp
    rw [updateProductRating_found data.productId h1 hR1 hp1]
    constructor
    · constructor
      · intro q hq
        simp only [List.mem_map] at hq
        rcases hq with ⟨p, hpmem, hpq⟩
        subst hpq
        split
        · simpa using hB1.1 p (by rw [hprod1] at hpmem ⊢; exact hpmem)
        · exact hB1.1 p hpmem
      · exact hB1.2
    · intro q hq
      simp only [List.mem_map] at hq
      rcases hq with ⟨p, hpmem, hpq⟩
      subst hpq
      by_cases hid : p.id = data.productId
      · rw [if_pos hid]
        simp only
        rw [hid, ratingFromReviews_of_nonempty st1.reviews data.productId hR1]
        rfl
      · rw [if_neg hid]
        have hold : p.rating = ratingFromReviews st.reviews p.id := hI p hpmem
        rw [hold, hrev1, ratingFromReviews_append_of_ne]
        simp only [newReviewDoc]
        exact fun hc => hid hc.symm
  · rw [createReview_noDb data (by simpa using h)]
    exact ⟨hB, hI⟩

/-- Every state reachable by the restricted steps satisfies the id bookkeeping
and the product rating invariant. -/
lemma safeReachable_inv {st : State} (h : SafeReachable st) :
    storeBounds st ∧ ratingInvariant st := by
  induction h with
  | init =>
    constructor
    · exact ⟨fun p hp => absurd hp (List.not_mem_nil p), fun r hr => absurd hr (List.not_mem_nil r)⟩
    · intro p hp
      exact absurd hp (List.not_mem_nil p)
  | step _ hstep ih =>
    cases hstep with
    | createProductStep data h0 => exact inv_createProduct data ih.1 ih.2 h0
    | createReviewStep data hp => exact inv_createReview data ih.1 ih.2 hp
    | updateProductStep pid data hr => exact inv_updateProduct pid data ih.1 ih.2 hr
    | updateProductRatingStep pid => exact inv_updateProductRating pid ih.1 ih.2

/-- Claim C5: `calculateReviewStats` is deterministic and permutation-invariant:
two calls on the same list agree, and a permutation of the input changes
neither the average, the total, nor the distribution. -/
theorem c5_stats_perm_invariant (l l' : List Review) (h : l.Perm l') :
    calculateReviewStats l = calculateReviewStats l ∧
    (calculateReviewStats l).average = (calculateReviewStats l').average ∧
    (calculateReviewStats l).total = (calculateReviewStats l').total ∧
    (calculateReviewStats l).distribution = (calculateReviewStats l').distribution := by
  refine ⟨rfl, ?_, ?_, ?_⟩ <;> rw [calculateReviewStats_eq, calculateReviewStats_eq]
  · rw [h.length_eq, (h.map Review.rating).sum_eq]
  · exact h.length_eq
  · simp only [starCount]
    rw [h.countP_eq, h.countP_eq, h.countP_eq, h.countP_eq, h.countP_eq]

/-- Witness for C5: applying the theorem to the two-element list `[5★, 4★]`
and its transposition. -/
theorem c5_stats_perm_invariant_witness :
    (calculateReviewStats [mkRev 0 0 5 0, mkRev 1 0 4 1]).average =
      (calculateReviewStats [mkRev 1 0 4 1, mkRev 0 0 5 0]).average ∧
    (calculateReviewStats [mkRev 0 0 5 0, mkRev 1 0 4 1]).total =
      (calculateReviewStats [mkRev 1 0 4 1, mkRev 0 0 5 0]).total ∧
    (calculateReviewStats [mkRev 0 0 5 0, mkRev 1 0 4 1]).distribution =
      (calculateReviewStats [mkRev 1 0 4 1, mkRev 0 0 5 0]).distribution :=
  (c5_stats_perm_invariant [mkRev 0 0 5 0, mkRev 1 0 4 1] [mkRev 1 0 4 1, mkRev 0 0 5 0]
    (List.Perm.swap (mkRev 1 0 4 1) (mkRev 0 0 5 0) [])).2

/-- Claim C6: when every rating lies in [1,5], the five histogram buckets of
`calculateReviewStats` sum to `total`. -/
theorem c6_histogram_total (l : List Review)
    (h : ∀ r ∈ l, 1 ≤ r.rating ∧ r.rating ≤ 5) :
    (calculateReviewStats l).distribution.d1 + (calculateReviewStats l).distribution.d2 +
      (calculateReviewStats l).distribution.d3 + (calculateReviewStats l).distribution.d4 +
      (calculateReviewStats l).distribution.d5 = (calculateReviewStats l).total := by
  rw [calculateReviewStats_eq]
  exact starCount_sum_eq l h

/-- Witness for C6: the theorem applied to the list `[5★, 4★, 4★]`. -/
theorem c6_histogram_total_witness :
    (∀ r ∈ [mkRev 0 0 5 0, mkRev 1 0 4 1, mkRev 2 0 4 2],
      1 ≤ r.rating ∧ r.rating ≤ 5) ∧
    (calculateReviewStats [mkRev 0 0 5 0, mkRev 1 0 4 1, mkRev 2 0 4 2]).distribution.d1 +
      (calculateReviewStats [mkRev 0 0 5 0, mkRev 1 0 4 1, mkRev 2 0 4 2]).distribution.d2 +
      (calculateReviewStats [mkRev 0 0 5 0, mkRev 1 0 4 1, mkRev 2 0 4 2]).distribution.d3 +
      (calculateReviewStats [mkRev 0 0 5 0, mkRev 1 0 4 1, mkRev 2 0 4 2]).distribution.d4 +
      (calculateReviewStats [mkRev 0 0 5 0, mkRev 1 0 4 1, mkRev 2 0 4 2]).distribution.d5 =
      (calculateReviewStats [mkRev 0 0 5 0, mkRev 1 0 4 1, mkRev 2 0 4 2]).total := by
  have h : ∀ r ∈ [mkRev 0 0 5 0, mkRev 1 0 4 1, mkRev 2 0 4 2],
      1 ≤ r.rating ∧ r.rating ≤ 5 := by
    intro r hr
    simp only [List.mem_cons, List.not_mem_nil, or_false] at hr
    rcases hr with hr | hr | hr <;> subst hr <;> constructor <;> norm_num [mkRev]
  exact ⟨h, c6_histogram_total _ h⟩

/-- Claim C7: a review rated exactly 4.5 lands in the 5-star bucket
(`Math.round` rounds half up) and a review rated exactly 1.0 lands in the
1-star bucket. -/
theorem c7_rounding_boundary (l : List Review) (r : Review) :
    (r.rating = 9/2 →
      (calculateReviewStats (r :: l)).distribution.d5 =
        (calculateReviewStats l).distribution.d5 + 1) ∧
    (r.rating = 1 →
      (calculateReviewStats (r :: l)).distribution.d1 =
        (calculateReviewStats l).distribution.d1 + 1) := by
  constructor
  · intro h45
    rw [calculateReviewStats_eq, calculateReviewStats_eq]
    simp only [starCount, List.countP_cons, h45, jsRound_nine_halves]
    norm_num
  · intro h1
    rw [calculateReviewStats_eq, calculateReviewStats_eq]
    simp only [starCount, List.countP_cons, h1, jsRound_one]
    norm_num

/-- Witness for C7: the theorem applied to singleton lists with ratings 4.5
and 1.0. -/
theorem c7_rounding_boundary_witness :
    ((mkRev 0 0 (9/2) 0).rating = 9/2 ∧
      (calculateReviewStats [mkRev 0 0 (9/2) 0]).distribution.d5 =
        (calculateReviewStats []).distribution.d5 + 1) ∧
    ((mkRev 1 0 1 1).rating = 1 ∧
      (calculateReviewStats [mkRev 1 0 1 1]).distribution.d1 =
        (calculateReviewStats []).distribution.d1 + 1) :=
  ⟨⟨rfl, (c7_rounding_boundary [] (mkRev 0 0 (9/2) 0)).1 rfl⟩,
   ⟨rfl, (c7_rounding_boundary [] (mkRev 1 0 1 1)).2 rfl⟩⟩

/-- Claim C10: for every input list, `calculateReviewStats` reports
`total = length`, a histogram over exactly the integer keys 1..5 whose bucket
`k` counts the reviews rounding to `k` (every other key is absent), bucket
counts summing to at most `total` (out-of-range rounded ratings increment no
bucket), and an average over all ratings including out-of-range ones. -/
theorem c10_stats_shape (l : List Review) :
    (calculateReviewStats l).total = l.length ∧
    (∀ k : ℤ, (calculateReviewStats l).distribution.bucket k =
      if 1 ≤ k ∧ k ≤ 5 then l.countP (fun r => jsRound r.rating == k) else 0) ∧
    (calculateReviewStats l).distribution.d1 + (calculateReviewStats l).distribution.d2 +
      (calculateReviewStats l).distribution.d3 + (calculateReviewStats l).distribution.d4 +
      (calculateReviewStats l).distribution.d5 ≤ (calculateReviewStats l).total ∧
    (calculateReviewStats l).average =
      toFixed1 (((l.map Review.rating).sum) / (l.length : ℚ)) := by
  rw [calculateReviewStats_eq]
  refine ⟨rfl, ?_, ?_, rfl⟩
  · intro k
    by_cases hk : 1 ≤ k ∧ k ≤ 5
    · rw [if_pos hk]
      obtain ⟨hk1, hk5⟩ := hk
      interval_cases k <;> simp [Distribution.bucket, starCount]
    · rw [if_neg hk]
      rw [Distribution.bucket]
      split_ifs with h1 h2 h3 h4 h5 <;> omega
  · exact starCount_sum_le l

/-- Claim C8: with the store handle uninitialized, every core operation throws
the distinct configuration error, and the stateful ones leave the store
untouched rather than silently no-opping. -/
theorem c8_fail_fast (st : State) (pid uid : ℕ) (data : ReviewInput)
    (sortBy : ReviewSortBy) (h : st.dbOk = false) :
    hasUserReviewed st pid uid = .error .notConfigured ∧
    createReview st data = (.error .notConfigured, st) ∧
    getProductReviews st pid sortBy = .error .notConfigured ∧
    subscribeToProductReviews st pid sortBy = .error .notConfigured ∧
    updateProductRating st pid = (.error .notConfigured, st) :=
  ⟨hasUserReviewed_noDb pid uid h, createReview_noDb data h,
   by simp [getProductReviews, h], by simp [subscribeToProductReviews, h],
   updateProductRating_noDb pid h⟩

/-- Witness for C8: the theorem applied to the uninitialized store. -/
theorem c8_fail_fast_witness :
    noDbState.dbOk = false ∧
    hasUserReviewed noDbState 0 3 = .error .notConfigured ∧
    createReview noDbState sampleInput = (.error .notConfigured, noDbState) ∧
    getProductReviews noDbState 0 .recent = .error .notConfigured ∧
    subscribeToProductReviews noDbState 0 .recent = .error .notConfigured ∧
    updateProductRating noDbState 0 = (.error .notConfigured, noDbState) :=
  ⟨rfl, c8_fail_fast noDbState 0 3 sampleInput .recent rfl⟩

/-- Claim C4: if a user has not reviewed a product and their `createReview`
for it succeeds, `hasUserReviewed` subsequently reports true. -/
theorem c4_create_then_hasReviewed (st : State) (data : ReviewInput)
    (rid : ℕ) (st' : State)
    (_h1 : hasUserReviewed st data.productId data.authorId = .ok false)
    (h2 : createReview st data = (.ok rid, st')) :
    hasUserReviewed st' data.productId data.authorId = .ok true := by
  have hdb : st.dbOk = true := by
    by_contra hdb
    rw [createReview_noDb data (by simpa using hdb)] at h2
    exact absurd (congrArg Prod.fst h2) (by simp)
  have hsnd : st' = (createReview st data).2 := by rw [h2]
  rw [createReview_snd data hdb] at hsnd
  have hframe := updateProductRating_frame (insertReview st data) data.productId
  have hrev : st'.reviews = st.reviews ++ [newReviewDoc st data] := by
    rw [hsnd, hframe.1]
    rfl
  have hdb' : st'.dbOk = true := by
    rw [hsnd, hframe.2.1]
    exact hdb
  rw [hasUserReviewed_ok _ _ hdb', hrev]
  simp [List.filter_append, List.filter_cons, newReviewDoc]

/-- Witness for C4: user 3 reviews product 0 in `oneProductState`. -/
theorem c4_create_then_hasReviewed_witness :
    hasUserReviewed oneProductState sampleInput.productId sampleInput.authorId = .ok false ∧
    hasUserReviewed (createReview oneProductState sampleInput).2
      sampleInput.productId sampleInput.authorId = .ok true := by
  have hdb : oneProductState.dbOk = true := rfl
  have h1 : hasUserReviewed oneProductState sampleInput.productId sampleInput.authorId =
      .ok false := by
    rw [hasUserReviewed_ok _ _ hdb]
    rfl
  have hR : productReviews (insertReview oneProductState sampleInput)
      sampleInput.productId ≠ [] := by
    simp [productReviews, insertReview, newReviewDoc, oneProductState, sampleInput]
  have hp : ((insertReview oneProductState sampleInput).products.any
      (fun p => p.id == sampleInput.productId)) = true := rfl
  have hrun := updateProductRating_found sampleInput.productId
    (show (insertReview oneProductState sampleInput).dbOk = true from rfl) hR hp
  have hfst : (createReview oneProductState sampleInput).1 =
      .ok oneProductState.nextId := by
    rw [createReview_fst sampleInput hdb, hrun]
  have h2 : createReview oneProductState sampleInput =
      (.ok oneProductState.nextId, (createReview oneProductState sampleInput).2) := by
    rw [← hfst]
  exact ⟨h1, c4_create_then_hasReviewed oneProductState sampleInput
    oneProductState.nextId _ h1 h2⟩

lemma writtenRating_eq_roundHalfUp (R : List Review)
    (h : ∀ r ∈ R, 1 ≤ r.rating ∧ r.rating ≤ 5) :
    writtenRating R = roundHalfUp1 (((R.map Review.rating).sum) / (R.length : ℚ)) := by
  rw [writtenRating, toFixed1_of_nonneg]
  apply div_nonneg
  · apply List.sum_nonneg
    intro x hx
    rcases List.mem_map.mp hx with ⟨r, hr, hxr⟩
    subst hxr
    linarith [(h r hr).1]
  · exact Nat.cast_nonneg _

/-- Claim C2: a successful `updateProductRating` writes the half-up-rounded
mean of the product's stored reviews onto the product when that set is
non-empty, and leaves the whole state untouched when it is empty. Ratings are
assumed in the data model's [1,5] range (where the code's `toFixed` rounding
is exactly half-up rounding). -/
theorem c2_updateProductRating_correct (st : State) (pid : ℕ)
    (u : Except Err Unit) (st' : State)
    (hrange : ∀ r ∈ st.reviews, r.productId = pid → 1 ≤ r.rating ∧ r.rating ≤ 5)
    (hrun : updateProductRating st pid = (u, st')) :
    (productReviews st pid ≠ [] → u = .ok () → ∀ p ∈ st'.products, p.id = pid →
      p.rating = roundHalfUp1 (((productReviews st pid).map Review.rating).sum /
        ((productReviews st pid).length : ℚ))) ∧
    (productReviews st pid = [] → st' = st) := by
  have hrangeR : ∀ r ∈ productReviews st pid, 1 ≤ r.rating ∧ r.rating ≤ 5 := by
    intro r hr
    rcases List.mem_filter.mp hr with ⟨hmem, hpid⟩
    exact hrange r hmem (by simpa using hpid)
  by_cases hdb : st.dbOk = true
  · by_cases hR : productReviews st pid = []
    · rw [updateProductRating_empty pid hdb hR] at hrun
      exact ⟨fun hne => absurd hR hne, fun _ => ((Prod.mk.injEq _ _ _ _).mp hrun.symm).2⟩
    · by_cases hp : st.products.any (fun p => p.id == pid) = true
      · rw [updateProductRating_found pid hdb hR hp] at hrun
        obtain ⟨hu, hst⟩ := (Prod.mk.injEq _ _ _ _).mp hrun.symm
        constructor
        · intro _ _ p hpmem hpid
          rw [hst] at hpmem
          simp only [List.mem_map] at hpmem
          rcases hpmem with ⟨q, hqmem, hqp⟩
          by_cases hqid : q.id = pid
          · rw [if_pos hqid] at hqp
            rw [← hqp]
            simp only
            rw [writtenRating_eq_roundHalfUp (productReviews st pid) hrangeR]
          · rw [if_neg hqid] at hqp
            rw [← hqp] at hpid
            exact absurd hpid hqid
        · intro habs
          exact absurd habs hR
      · rw [updateProductRating_notFound pid hdb hR (by simpa using hp)] at hrun
        obtain ⟨hu, hst⟩ := (Prod.mk.injEq _ _ _ _).mp hrun.symm
        constructor
        · intro _ hok
          rw [hu] at hok
          exact absurd hok (by simp)
        · intro habs
          exact absurd habs hR
  · rw [updateProductRating_noDb pid (by simpa using hdb)] at hrun
    obtain ⟨hu, hst⟩ := (Prod.mk.injEq _ _ _ _).mp hrun.symm
    constructor
    · intro _ hok
      rw [hu] at hok
      exact absurd hok (by simp)
    · intro _
      exact hst

/-- Witness for C2: recomputing product 0's rating in `ratedState` writes the
rounded mean of its single rating-4 review. -/
theorem c2_updateProductRating_correct_witness :
    (∀ r ∈ ratedState.reviews, r.productId = 0 → 1 ≤ r.rating ∧ r.rating ≤ 5) ∧
    productReviews ratedState 0 ≠ [] ∧
    (∀ p ∈ (updateProductRating ratedState 0).2.products, p.id = 0 →
      p.rating = roundHalfUp1 (((productReviews ratedState 0).map Review.rating).sum /
        ((productReviews ratedState 0).length : ℚ))) := by
  have hrange : ∀ r ∈ ratedState.reviews, r.productId = 0 →
      1 ≤ r.rating ∧ r.rating ≤ 5 := by
    intro r hr _
    simp only [ratedState, List.mem_singleton] at hr
    subst hr
    constructor <;> norm_num [mkRev]
  have hR : productReviews ratedState 0 ≠ [] := by
    simp [productReviews, ratedState, mkRev]
  have hrun : updateProductRating ratedState 0 =
      ((updateProductRating ratedState 0).1, (updateProductRating ratedState 0).2) := rfl
  have hok : (updateProductRating ratedState 0).1 = .ok () := by
    rw [updateProductRating_found 0 rfl hR rfl]
  exact ⟨hrange, hR,
    (c2_updateProductRating_correct ratedState 0 _ _ hrange hrun).1 hR hok⟩

lemma forall₂_map_self {α : Type} (f : α → α) (R : α → α → Prop) (l : List α)
    (h : ∀ a ∈ l, R a (f a)) : List.Forall₂ R l (l.map f) := by
  induction l with
  | nil => exact List.Forall₂.nil
  | cons a l ih =>
    exact List.Forall₂.cons (h a (List.mem_cons_self a l))
      (ih (fun x hx => h x (List.mem_cons_of_mem a hx)))

/-- Claim C9: a successful `updateProductRating` for a product with at least
one review changes only that product's `rating` field: every review document,
every other product, and every other field of the target product are
unchanged. -/
theorem c9_frame (st : State) (pid : ℕ) (st' : State)
    (hR : productReviews st pid ≠ [])
    (hrun : updateProductRating st pid = (.ok (), st')) :
    st'.reviews = st.reviews ∧
    List.Forall₂ (fun p q => agreeExceptRating p q ∧ (p.id ≠ pid → q = p))
      st.products st'.products := by
  have hdb : st.dbOk = true := by
    by_contra hdb
    rw [updateProductRating_noDb pid (by simpa using hdb)] at hrun
    exact absurd (congrArg Prod.fst hrun) (by simp)
  have hp : st.products.any (fun p => p.id == pid) = true := by
    by_contra hp
    rw [updateProductRating_notFound pid hdb hR (by simpa using hp)] at hrun
    exact absurd (congrArg Prod.fst hrun) (by simp)
  rw [updateProductRating_found pid hdb hR hp] at hrun
  obtain ⟨_, hst⟩ := (Prod.mk.injEq _ _ _ _).mp hrun.symm
  rw [hst]
  refine ⟨rfl, ?_⟩
  apply forall₂_map_self
  intro p _
  by_cases hid : p.id = pid
  · rw [if_pos hid]
    refine ⟨⟨rfl, rfl, rfl, rfl, rfl, rfl, rfl, rfl, rfl, rfl⟩, ?_⟩
    intro hne
    exact absurd hid hne
  · rw [if_neg hid]
    exact ⟨⟨rfl, rfl, rfl, rfl, rfl, rfl, rfl, rfl, rfl, rfl⟩, fun _ => rfl⟩

/-- Witness for C9: the frame theorem applied to `ratedState`. -/
theorem c9_frame_witness :
    productReviews ratedState 0 ≠ [] ∧
    (updateProductRating ratedState 0).2.reviews = ratedState.reviews ∧
    List.Forall₂ (fun p q => agreeExceptRating p q ∧ (p.id ≠ 0 → q = p))
      ratedState.products (updateProductRating ratedState 0).2.products := by
  have hR : productReviews ratedState 0 ≠ [] := by
    simp [productReviews, ratedState, mkRev]
  have hok : (updateProductRating ratedState 0).1 = .ok () := by
    rw [updateProductRating_found 0 rfl hR rfl]
  have hrun : updateProductRating ratedState 0 =
      (.ok (), (updateProductRating ratedState 0).2) := by
    rw [← hok]
  exact ⟨hR, c9_frame ratedState 0 _ hR hrun⟩

lemma updateProductRating_error_snd (st : State) (pid : ℕ) (e : Err)
    (h : (updateProductRating st pid).1 = .error e) :
    (updateProductRating st pid).2 = st := by
  by_cases hdb : st.dbOk = true
  · by_cases hR : productReviews st pid = []
    · rw [updateProductRating_empty pid hdb hR]
    · by_cases hp : st.products.any (fun p => p.id == pid) = true
      · rw [updateProductRating_found pid hdb hR hp] at h
        exact absurd h (by simp)
      · rw [updateProductRating_notFound pid hdb hR (by simpa using hp)]
  · rw [updateProductRating_noDb pid (by simpa using hdb)]

/-- Claim C3 counterexample: in the empty store, `createReview` for a product
id that does not exist throws (the inner `updateDoc` of the product rating
fails) — yet the review document it inserted first remains, so the state after
the failed call differs from the state before it. -/
theorem c3_counterexample :
    (createReview initialState sampleInput).1 = .error Err.notFound ∧
    (createReview initialState sampleInput).2 ≠ initialState := by
  have hdb : initialState.dbOk = true := rfl
  have hR : productReviews (insertReview initialState sampleInput)
      sampleInput.productId ≠ [] := by
    simp [productReviews, insertReview, newReviewDoc, initialState, sampleInput]
  have hp : ((insertReview initialState sampleInput).products.any
      (fun p => p.id == sampleInput.productId)) = false := rfl
  have hupr := updateProductRating_notFound sampleInput.productId
    (show (insertReview initialState sampleInput).dbOk = true from rfl) hR
    (by simpa using hp)
  constructor
  · rw [createReview_fst sampleInput hdb, hupr]
  · rw [createReview_snd sampleInput hdb, hupr]
    intro hcontra
    have : (insertReview initialState sampleInput).reviews = initialState.reviews :=
      congrArg State.reviews hcontra
    simp [insertReview, initialState] at this

/-- Claim C3 (amended): a `createReview` that fails before any write (store
not configured) leaves the state unchanged; but a `createReview` that fails
after its review insert (the rating update threw) propagates the error while
the inserted review remains — the products (and hence the rating) are
untouched, the review is not rolled back. -/
theorem c3_failed_create_state (st : State) (data : ReviewInput) (e : Err)
    (st' : State) (hrun : createReview st data = (.error e, st')) :
    (e = .notConfigured → st' = st) ∧
    (e ≠ .notConfigured →
      st'.products = st.products ∧
      st'.reviews = st.reviews ++ [newReviewDoc st data]) := by
  by_cases hdb : st.dbOk = true
  · have hfst : (createReview st data).1 = .error e := by rw [hrun]
    rw [createReview_fst data hdb] at hfst
    rcases updateProductRating_fst_cases (insertReview st data) data.productId hdb
      with hok | herr
    · rw [hok] at hfst
      exact absurd hfst (by simp)
    · rw [herr] at hfst
      have he : e = .notFound := by
        have := hfst.symm
        simpa using this
      have hsnd : st' = (createReview st data).2 := by rw [hrun]
      rw [createReview_snd data hdb,
        updateProductRating_error_snd _ _ Err.notFound herr] at hsnd
      constructor
      · intro habs
        rw [habs] at he
        exact absurd he (by simp)
      · intro _
        rw [hsnd]
        exact ⟨rfl, rfl⟩
  · rw [createReview_noDb data (by simpa using hdb)] at hrun
    obtain ⟨he, hst⟩ := (Prod.mk.injEq _ _ _ _).mp hrun.symm
    have he' : e = .notConfigured := by simpa using he
    constructor
    · intro _
      exact hst
    · intro habs
      exact absurd he' habs

/-- Witness for the amended C3: the concrete failing call of the
counexample input leaves the products list unchanged and exactly the
orphaned review behind. -/
theorem c3_failed_create_state_witness :
    createReview initialState sampleInput =
      (.error Err.notFound, (createReview initialState sampleInput).2) ∧
    (createReview initialState sampleInput).2.products = initialState.products ∧
    (createReview initialState sampleInput).2.reviews =
      initialState.reviews ++ [newReviewDoc initialState sampleInput] := by
  have hdb : initialState.dbOk = true := rfl
  have hR : productReviews (insertReview initialState sampleInput)
      sampleInput.productId ≠ [] := by
    simp [productReviews, insertReview, newReviewDoc, initialState, sampleInput]
  have hupr := updateProductRating_notFound sampleInput.productId
    (show (insertReview initialState sampleInput).dbOk = true from rfl) hR
    (by simp [insertReview, initialState])
  have hfst : (createReview initialState sampleInput).1 = .error Err.notFound := by
    rw [createReview_fst sampleInput hdb, hupr]
  have hrun : createReview initialState sampleInput =
      (.error Err.notFound, (createReview initialState sampleInput).2) := by
    rw [← hfst]
  exact ⟨hrun, (c3_failed_create_state initialState sampleInput Err.notFound _ hrun).2
    (by simp)⟩

/-- Claim C1 counterexample: one `createProduct` call whose input carries
rating 5 reaches a state where that product has rating 5 and no reviews, so
its rating is not the rounded mean (which would be 0). -/
theorem c1_counterexample :
    Reachable (createProduct initialState badProductInput).2 ∧
    ¬ ratingInvariant (createProduct initialState badProductInput).2 := by
  constructor
  · exact Reachable.step Reachable.init (Step.createProductStep initialState badProductInput)
  · intro hinv
    have hmem : badProduct ∈ (createProduct initialState badProductInput).2.products := by
      simp [createProduct, initialState, badProductInput, badProduct]
    have h5 := hinv _ hmem
    rw [ratingFromReviews] at h5
    simp only [createProduct, initialState, badProductInput, badProduct] at h5
    norm_num at h5

/-- Claim C1 (amended): the rating invariant holds on every state reachable
from the empty store when `createProduct` inputs carry rating 0, `updateProduct`
calls omit the `rating` field, and `createReview` calls target an existing
product id — the three freedoms the counterexample exploits (the code stores a
caller-supplied product rating verbatim, lets `updateProduct` overwrite
`rating`, and inserts reviews whose product id matches no product). -/
theorem c1_rating_invariant (st : State) (h : SafeReachable st) :
    ratingInvariant st :=
  (safeReachable_inv h).2

/-- Witness for the amended C1: the restricted trace create-product-then-
review-it is `SafeReachable` and satisfies the rating invariant. -/
theorem c1_rating_invariant_witness :
    SafeReachable c1WitnessState ∧ ratingInvariant c1WitnessState := by
  have h1 : SafeReachable (createProduct initialState goodProductInput).2 :=
    SafeReachable.step SafeReachable.init
      (SafeStep.createProductStep initialState goodProductInput rfl)
  have hany : ((createProduct initialState goodProductInput).2).products.any
      (fun p => p.id == sampleInput.productId) = true := rfl
  have h2 : SafeReachable c1WitnessState :=
    SafeReachable.step h1
      (SafeStep.createReviewStep (createProduct initialState goodProductInput).2
        sampleInput hany)
  exact ⟨h2, c1_rating_invariant c1WitnessState h2⟩

end MamaeReview
